import Mathlib

/-!
Verification development for the afk session supervisor core.

The definitions below are shallow embeddings of the Python sources:
`afk/core/events.py`, `afk/core/session_manager.py`,
`afk/core/git_worktree.py`, `afk/storage/message_store.py` and
`afk/storage/project_store.py`.  Pure functions become Lean functions;
stateful methods become explicit state passing, with the side effects
(git subprocess calls, agent process operations) recorded as traces and
their outcomes supplied by an environment oracle.
-/

namespace Afk

/-! ## Event levels (afk/core/events.py, class EventLevel) -/

/-- Semantic importance level of an agent event (events.py `EventLevel`). -/
inductive EventLevel where
  | INTERNAL
  | PROGRESS
  | INFO
  | NOTIFY
deriving DecidableEq, Repr

/-! ## Raw assistant content blocks

`_classify_assistant_level` receives either a plain string or a list of
content blocks; a block is either a JSON object (Python `dict`, modelled by
its string-valued fields) or some non-dict value. -/

/-- One element of an assistant `content` list: a dict block (modelled by its
string fields, looked up with `List.lookup`) or a non-dict element. -/
inductive Block where
  | dict (fields : List (String × String))
  | nonDict
deriving DecidableEq, Repr

/-- `isinstance(block, dict) and block.get("type") == "text"` -/
def blockIsText : Block → Bool
  | Block.dict fields => fields.lookup "type" == some "text"
  | Block.nonDict => false

/-- The `content_blocks` argument: a plain string or a list of blocks. -/
inductive ContentVal where
  | str (s : String)
  | blocks (bs : List Block)
deriving DecidableEq, Repr

/-- Python truthiness of a content value (`""` and `[]` are falsy). -/
def contentTruthy : ContentVal → Bool
  | ContentVal.str s => s ≠ ""
  | ContentVal.blocks bs => bs ≠ []

/-- The `for block in content_blocks` loop of `_classify_assistant_level`:
return INFO at the first text block, else fall through to PROGRESS. -/
def classifyBlocksLoop : List Block → EventLevel
  | [] => EventLevel.PROGRESS
  | b :: rest =>
      if blockIsText b then EventLevel.INFO else classifyBlocksLoop rest

/-- `SessionManager._classify_assistant_level` (session_manager.py:380-391):
a plain string is INFO; a list is INFO when some dict block has
`type == "text"`, else PROGRESS. -/
def classify_assistant_level : ContentVal → EventLevel
  | ContentVal.str _ => EventLevel.INFO
  | ContentVal.blocks bs => classifyBlocksLoop bs

/-! ## Typed events (afk/core/events.py)

`AgentSystemEvent`, `AgentAssistantEvent`, `AgentResultEvent` and
`AgentStoppedEvent` are dataclasses of events.py.  The constructor wrappers
`mk*` fix the `level` field exactly as the dataclass defaults do at the
call sites of `_publish_agent_event` (which never pass `level` except for
the assistant event). -/

/-- The closed sum of typed events the session manager publishes. -/
inductive Event where
  | agentSystem (channel_id : String) (agent_session_id : Option String)
      (level : EventLevel)
  | agentAssistant (channel_id : String) (content_blocks : ContentVal)
      (session_name : String) (level : EventLevel) (verbose : Bool)
  | agentPermissionRequest (channel_id : String) (request_id : String)
      (tool_name : String) (tool_input : List (String × String))
      (level : EventLevel)
  | agentResult (channel_id : String) (cost_usd : Rat) (duration_ms : Int)
      (level : EventLevel)
  | agentInputRequest (channel_id : String) (session_name : String)
      (level : EventLevel)
  | agentStopped (channel_id : String) (session_name : String)
      (level : EventLevel)
deriving DecidableEq, Repr

/-- The `level` field carried by an event. -/
def Event.level : Event → EventLevel
  | Event.agentSystem _ _ l => l
  | Event.agentAssistant _ _ _ l _ => l
  | Event.agentPermissionRequest _ _ _ _ l => l
  | Event.agentResult _ _ _ l => l
  | Event.agentInputRequest _ _ l => l
  | Event.agentStopped _ _ l => l

/-- `AgentSystemEvent(channel_id, agent_session_id)` — dataclass default
`level=EventLevel.INTERNAL`. -/
def mkAgentSystemEvent (channel_id : String) (sid : Option String) : Event :=
  Event.agentSystem channel_id sid EventLevel.INTERNAL

/-- `AgentAssistantEvent(...)` — `level` is always passed explicitly. -/
def mkAgentAssistantEvent (channel_id : String) (blocks : ContentVal)
    (session_name : String) (level : EventLevel) (verbose : Bool) : Event :=
  Event.agentAssistant channel_id blocks session_name level verbose

/-- `AgentPermissionRequestEvent(channel_id, request_id, tool_name,
tool_input)`.  Modelled from the spec: the dataclass is absent from
src/afk/core/events.py (only its importers reference it); spec section 4.3
gives `AgentPermissionRequest dataclass with default level=NOTIFY`. -/
def mkAgentPermissionRequestEvent (channel_id request_id tool_name : String)
    (tool_input : List (String × String)) : Event :=
  Event.agentPermissionRequest channel_id request_id tool_name tool_input
    EventLevel.NOTIFY

/-- `AgentResultEvent(channel_id, cost_usd, duration_ms)` — dataclass
default `level=EventLevel.NOTIFY` (events.py:97-103). -/
def mkAgentResultEvent (channel_id : String) (cost : Rat) (dur : Int) : Event :=
  Event.agentResult channel_id cost dur EventLevel.NOTIFY

/-- `AgentInputRequestEvent(channel_id, session_name)`.  Modelled from the
spec: the dataclass is absent from src/afk/core/events.py (only its
importers reference it); spec section 4.3 gives `AgentInputRequest` with
fields channel_id, session_name and default level=NOTIFY. -/
def mkAgentInputRequestEvent (channel_id session_name : String) : Event :=
  Event.agentInputRequest channel_id session_name EventLevel.NOTIFY

/-- `AgentStoppedEvent(channel_id, session_name)` — dataclass default
`level=EventLevel.NOTIFY`. -/
def mkAgentStoppedEvent (channel_id session_name : String) : Event :=
  Event.agentStopped channel_id session_name EventLevel.NOTIFY

/-! ## Raw agent messages and `_publish_agent_event` -/

/-- The fields of a raw agent message dict that `_publish_agent_event`
reads (`msg.get(...)`); `none` stands for an absent key (or Python
`None`). `message_content` stands for `msg.get("message", {}).get
("content", ...)` being present. -/
structure RawMsg where
  type : Option String := none
  session_id : Option String := none
  content : Option ContentVal := none
  message_content : Option ContentVal := none
  id : Option String := none
  tool_name : Option String := none
  tool_input : Option (List (String × String)) := none
  total_cost_usd : Option Rat := none
  duration_ms : Option Int := none
deriving Repr

/-- `msg.get("content") or msg.get("message", {}).get("content", [])`:
a falsy top-level `content` (absent, `""`, `[]`) falls through to the
`message.content` chain, whose missing-key default is the empty list. -/
def extractContentBlocks (m : RawMsg) : ContentVal :=
  match m.content with
  | some c =>
      if contentTruthy c then c
      else m.message_content.getD (ContentVal.blocks [])
  | none => m.message_content.getD (ContentVal.blocks [])

/-- The per-session fields of `Session` that `_publish_agent_event`
reads or writes. -/
structure PubSession where
  channel_id : String
  name : String
  verbose : Bool
  state : String
  agent_session_id : Option String
deriving DecidableEq, Repr

/-- Python truthiness of an optional string (`if sid:`). -/
def optStrTruthy : Option String → Bool
  | none => false
  | some s => s ≠ ""

/-- `SessionManager._publish_agent_event` (session_manager.py:393-455):
convert a raw agent message to typed events, updating the session's
state (and on `system`, its captured agent session id).  Returns the
updated session and the events published, in publish order. -/
def publish_agent_event (s : PubSession) (m : RawMsg) :
    PubSession × List Event :=
  if m.type = some "system" then
    let s1 := if optStrTruthy m.session_id
      then { s with agent_session_id := m.session_id } else s
    let s2 := { s1 with state := "idle" }
    (s2, [mkAgentSystemEvent s.channel_id m.session_id])
  else if m.type = some "assistant" then
    let s1 := { s with state := "running" }
    let blocks := extractContentBlocks m
    let level := classify_assistant_level blocks
    (s1, [mkAgentAssistantEvent s.channel_id blocks s.name level s.verbose])
  else if m.type = some "permission_request" then
    let s1 := { s with state := "waiting_permission" }
    let tool_name := m.tool_name.getD "unknown"
    (s1, [mkAgentPermissionRequestEvent s.channel_id (m.id.getD "")
      tool_name (m.tool_input.getD [])])
  else if m.type = some "result" then
    let s1 := { s with state := "idle" }
    (s1, [mkAgentResultEvent s.channel_id (m.total_cost_usd.getD 0)
        (m.duration_ms.getD 0),
      mkAgentInputRequestEvent s.channel_id s.name])
  else
    (s, [])

/-! ## Claims C1 and C8: classification and the result path -/

/-- The classification table exactly as the claim words it: a string is
INFO, a list with at least one text block is INFO, a list with none
(including the empty list) is PROGRESS. -/
def claimedAssistantLevel : ContentVal → EventLevel
  | ContentVal.str _ => EventLevel.INFO
  | ContentVal.blocks bs =>
      if bs.any blockIsText then EventLevel.INFO else EventLevel.PROGRESS

theorem classifyBlocksLoop_eq_any (bs : List Block) :
    classifyBlocksLoop bs =
      if bs.any blockIsText then EventLevel.INFO else EventLevel.PROGRESS := by
  induction bs with
  | nil => rfl
  | cons b rest ih =>
      by_cases hb : blockIsText b <;> simp [classifyBlocksLoop, hb, ih]

/-- C1: for a raw `assistant` message the session manager publishes one
`AgentAssistantEvent` whose level is `_classify_assistant_level` of the
extracted content blocks, and that classification matches the claim's
table: string ⇒ INFO, some text block ⇒ INFO, none (or empty) ⇒
PROGRESS. -/
theorem C1_assistant_classification (sess : PubSession) (m : RawMsg)
    (cb : ContentVal) (h : m.type = some "assistant") :
    (publish_agent_event sess m).2 =
      [mkAgentAssistantEvent sess.channel_id (extractContentBlocks m)
        sess.name (classify_assistant_level (extractContentBlocks m))
        sess.verbose] ∧
    classify_assistant_level cb = claimedAssistantLevel cb := by
  constructor
  · simp [publish_agent_event, h]
  · cases cb with
    | str s => rfl
    | blocks bs =>
        simp [classify_assistant_level, claimedAssistantLevel,
          classifyBlocksLoop_eq_any]

/-- C1 witness: a concrete assistant message with one text block is
published at level INFO. -/
theorem C1_assistant_classification_witness :
    (publish_agent_event ⟨"c1", "s1", false, "idle", none⟩
        { type := some "assistant",
          content := some (ContentVal.blocks
            [Block.dict [("type", "text"), ("text", "hi")]]) }).2 =
      [mkAgentAssistantEvent "c1"
        (extractContentBlocks
          { type := some "assistant",
            content := some (ContentVal.blocks
              [Block.dict [("type", "text"), ("text", "hi")]]) })
        "s1"
        (classify_assistant_level (extractContentBlocks
          { type := some "assistant",
            content := some (ContentVal.blocks
              [Block.dict [("type", "text"), ("text", "hi")]]) }))
        false] ∧
    classify_assistant_level
        (ContentVal.blocks [Block.dict [("type", "text"), ("text", "hi")]]) =
      claimedAssistantLevel
        (ContentVal.blocks [Block.dict [("type", "text"), ("text", "hi")]]) :=
  C1_assistant_classification ⟨"c1", "s1", false, "idle", none⟩ _
    (ContentVal.blocks [Block.dict [("type", "text"), ("text", "hi")]]) rfl

/-- C8: a raw `result` message publishes an `AgentResultEvent` carrying
`total_cost_usd` and `duration_ms` (0 when absent) and then an
`AgentInputRequestEvent`, both at level NOTIFY, and sets the session
state to idle. -/
theorem C8_result_path (sess : PubSession) (m : RawMsg)
    (h : m.type = some "result") :
    publish_agent_event sess m =
      ({ sess with state := "idle" },
       [mkAgentResultEvent sess.channel_id (m.total_cost_usd.getD 0)
          (m.duration_ms.getD 0),
        mkAgentInputRequestEvent sess.channel_id sess.name]) ∧
    (mkAgentResultEvent sess.channel_id (m.total_cost_usd.getD 0)
      (m.duration_ms.getD 0)).level = EventLevel.NOTIFY ∧
    (mkAgentInputRequestEvent sess.channel_id sess.name).level =
      EventLevel.NOTIFY ∧
    (publish_agent_event sess m).1.state = "idle" := by
  refine ⟨?_, rfl, rfl, ?_⟩ <;> simp [publish_agent_event, h]

/-- C8 witness: a concrete result message with explicit cost and
duration. -/
theorem C8_result_path_witness :
    publish_agent_event ⟨"c1", "s1", false, "running", some "sid"⟩
        { type := some "result", total_cost_usd := some (1 / 100),
          duration_ms := some 1234 } =
      ({ channel_id := "c1", name := "s1", verbose := false,
         state := "idle", agent_session_id := some "sid" },
       [mkAgentResultEvent "c1" ((some ((1 : Rat) / 100)).getD 0)
          ((some (1234 : Int)).getD 0),
        mkAgentInputRequestEvent "c1" "s1"]) ∧
    (mkAgentResultEvent "c1" ((some ((1 : Rat) / 100)).getD 0)
      ((some (1234 : Int)).getD 0)).level = EventLevel.NOTIFY ∧
    (mkAgentInputRequestEvent "c1" "s1").level = EventLevel.NOTIFY ∧
    (publish_agent_event ⟨"c1", "s1", false, "running", some "sid"⟩
        { type := some "result", total_cost_usd := some (1 / 100),
          duration_ms := some 1234 }).1.state = "idle" :=
  C8_result_path ⟨"c1", "s1", false, "running", some "sid"⟩
    { type := some "result", total_cost_usd := some (1 / 100),
      duration_ms := some 1234 } rfl

/-! ## The event bus (afk/core/events.py, class EventBus)

The Python bus is generic: `_subscribers` maps an event *type* (a Python
class) to the list of `asyncio.Queue`s subscribed for it.  Types are
modelled by an abstract tag `EvType`; published values by `BusEvent`
(tag plus payload), so that `type(event)` is `BusEvent.ty`.  Queues are
identified by the id assigned at subscription (Python object identity);
`asyncio.Queue()` with no argument has `maxsize = 0`, meaning unbounded,
and `put_nowait` raises `QueueFull` exactly when
`0 < maxsize ≤ qsize()`. -/

/-- An event type tag (stands for a Python event class). -/
abbrev EvType := Nat

/-- A published value: its type tag and a payload. -/
structure BusEvent where
  ty : EvType
  payload : Nat
deriving DecidableEq, Repr

/-- One `asyncio.Queue` held by the bus: its identity, its `maxsize`
(0 = unbounded) and its current items in FIFO order. -/
structure BusQueue where
  qid : Nat
  maxsize : Nat
  items : List BusEvent
deriving DecidableEq, Repr

/-- `EventBus` state: the next fresh queue identity and the subscription
list.  The Python `dict[type, list[Queue]]` is flattened to a list of
(type, queue) pairs; per-type order is preserved. -/
structure BusState where
  nextId : Nat
  subs : List (EvType × BusQueue)
deriving DecidableEq, Repr

/-- A freshly constructed `EventBus()` — no subscribers. -/
def BusState.init : BusState := ⟨0, []⟩

/-- `EventBus.subscribe(event_type)`: create a fresh `asyncio.Queue()`
(unbounded, `maxsize = 0`), register it for `event_type`, return it
(here: its identity). -/
def BusState.subscribe (s : BusState) (t : EvType) : BusState × Nat :=
  ({ nextId := s.nextId + 1,
     subs := s.subs ++ [(t, ⟨s.nextId, 0, []⟩)] }, s.nextId)

/-- `EventBus.unsubscribe(event_type, queue)`: remove the queue from the
list registered for `event_type` if it is there (`list.remove` drops the
first occurrence; absent queue: no change). -/
def BusState.unsubscribe (s : BusState) (t : EvType) (q : Nat) : BusState :=
  { s with subs := s.subs.eraseP (fun p => p.1 == t && p.2.qid == q) }

/-- `asyncio.Queue.put_nowait`: drop (raise `QueueFull`) exactly when
`0 < maxsize ≤ len(items)`, else append.  The Bool records a drop. -/
def queuePut (q : BusQueue) (e : BusEvent) : BusQueue × Bool :=
  if 0 < q.maxsize ∧ q.maxsize ≤ q.items.length then (q, true)
  else ({ q with items := q.items ++ [e] }, false)

/-- The body of `publish`'s `for queue in self._subscribers.get(type
(event), [])` loop, acting on one (type, queue) pair: queues of another
type are untouched. -/
def publishStep (e : BusEvent) (p : EvType × BusQueue) :
    (EvType × BusQueue) × Nat :=
  if p.1 = e.ty then
    let r := queuePut p.2 e
    ((p.1, r.1), if r.2 then 1 else 0)
  else (p, 0)

/-- `EventBus.publish(event)`: `put_nowait` on every queue subscribed for
`type(event)`; a full queue drops the event with a warning.  Returns the
new state and the number of drops. -/
def BusState.publish (s : BusState) (e : BusEvent) : BusState × Nat :=
  let results := s.subs.map (publishStep e)
  ({ s with subs := results.map Prod.fst },
   (results.map Prod.snd).sum)

/-- The bus states reachable from `EventBus()` through its public
methods. -/
inductive BusReachable : BusState → Prop where
  | init : BusReachable BusState.init
  | subscribe {s : BusState} (t : EvType) :
      BusReachable s → BusReachable (s.subscribe t).1
  | unsubscribe {s : BusState} (t : EvType) (q : Nat) :
      BusReachable s → BusReachable (s.unsubscribe t q)
  | publish {s : BusState} (e : BusEvent) :
      BusReachable s → BusReachable (s.publish e).1

/-- Bus invariant: every held queue is the unbounded queue made by
`subscribe` (maxsize 0), carries only events of its subscription type,
and queue identities are below `nextId` and pairwise distinct. -/
def BusInv (s : BusState) : Prop :=
  (∀ p ∈ s.subs, p.2.maxsize = 0 ∧ p.2.qid < s.nextId ∧
    ∀ ev ∈ p.2.items, ev.ty = p.1) ∧
  (s.subs.map (fun p => p.2.qid)).Nodup

theorem busInv_init : BusInv BusState.init := by
  constructor
  · intro p hp; simp [BusState.init] at hp
  · simp [BusState.init]

theorem busInv_subscribe (s : BusState) (t : EvType) (h : BusInv s) :
    BusInv (s.subscribe t).1 := by
  obtain ⟨h1, h2⟩ := h
  constructor
  · intro p hp
    simp only [BusState.subscribe, List.mem_append, List.mem_singleton] at hp
    rcases hp with hp | hp
    · obtain ⟨m0, hlt, hty⟩ := h1 p hp
      exact ⟨m0, Nat.lt_succ_of_lt hlt, hty⟩
    · subst hp
      refine ⟨rfl, ?_, by intro ev hev; simp at hev⟩
      simp [BusState.subscribe]
  · simp only [BusState.subscribe, List.map_append, List.map_cons,
      List.map_nil]
    rw [List.nodup_append]
    refine ⟨h2, List.nodup_singleton _, ?_⟩
    intro x hx
    obtain ⟨p, hp, rfl⟩ := List.mem_map.mp hx
    obtain ⟨_, hlt, _⟩ := h1 p hp
    simp only [List.mem_singleton]
    omega

theorem busInv_unsubscribe (s : BusState) (t : EvType) (q : Nat)
    (h : BusInv s) : BusInv (s.unsubscribe t q) := by
  obtain ⟨h1, h2⟩ := h
  have hsub : (s.unsubscribe t q).subs.Sublist s.subs :=
    List.eraseP_sublist _
  constructor
  · intro p hp
    exact h1 p (hsub.mem hp)
  · exact (hsub.map _).nodup h2

/-- `put_nowait` on an unbounded queue always appends and never drops. -/
theorem queuePut_unbounded (q : BusQueue) (e : BusEvent)
    (h : q.maxsize = 0) :
    queuePut q e = ({ q with items := q.items ++ [e] }, false) := by
  simp [queuePut, h]

/-- With only unbounded queues (the invariant), `publish` appends the
event to exactly the queues of its type and drops nothing. -/
theorem publish_eq (s : BusState) (e : BusEvent)
    (hms : ∀ p ∈ s.subs, p.2.maxsize = 0) :
    s.publish e =
      ({ s with subs := s.subs.map (fun p =>
          if p.1 = e.ty then
            (p.1, ⟨p.2.qid, p.2.maxsize, p.2.items ++ [e]⟩)
          else p) }, 0) := by
  have hstep : ∀ p ∈ s.subs, publishStep e p =
      (if p.1 = e.ty then
        (p.1, ⟨p.2.qid, p.2.maxsize, p.2.items ++ [e]⟩)
      else p, 0) := by
    intro p hp
    by_cases hc : p.1 = e.ty
    · simp [publishStep, hc, queuePut_unbounded p.2 e (hms p hp),
        hms p hp]
    · simp [publishStep, hc]
  unfold BusState.publish
  simp only [List.map_map]
  have hfst : s.subs.map (Prod.fst ∘ publishStep e) =
      s.subs.map (fun p =>
        if p.1 = e.ty then
          (p.1, ⟨p.2.qid, p.2.maxsize, p.2.items ++ [e]⟩)
        else p) := by
    apply List.map_congr_left
    intro p hp
    simp [Function.comp, hstep p hp]
  have hsnd : s.subs.map (Prod.snd ∘ publishStep e) =
      s.subs.map (fun _ => (0 : Nat)) := by
    apply List.map_congr_left
    intro p hp
    simp [Function.comp, hstep p hp]
  rw [hfst, hsnd]
  simp

theorem busInv_publish (s : BusState) (e : BusEvent) (h : BusInv s) :
    BusInv (s.publish e).1 := by
  obtain ⟨h1, h2⟩ := h
  have hms : ∀ p ∈ s.subs, p.2.maxsize = 0 := fun p hp => (h1 p hp).1
  rw [publish_eq s e hms]
  constructor
  · intro p hp
    obtain ⟨p0, hp0, hstep⟩ := List.mem_map.mp hp
    obtain ⟨m0, hlt, hty⟩ := h1 p0 hp0
    by_cases hcase : p0.1 = e.ty
    · rw [if_pos hcase] at hstep
      subst hstep
      refine ⟨m0, hlt, ?_⟩
      intro ev hev
      simp only [List.mem_append, List.mem_singleton] at hev
      rcases hev with hev | hev
      · exact hty ev hev
      · subst hev; exact hcase.symm
    · rw [if_neg hcase] at hstep
      subst hstep
      exact ⟨m0, hlt, hty⟩
  · have hqids : ((s.subs.map (fun p =>
        if p.1 = e.ty then
          ((p.1, ⟨p.2.qid, p.2.maxsize, p.2.items ++ [e]⟩) :
            EvType × BusQueue)
        else p)).map (fun p => p.2.qid)) =
        s.subs.map (fun p => p.2.qid) := by
      rw [List.map_map]
      apply List.map_congr_left
      intro p hp
      by_cases hcase : p.1 = e.ty
      · simp [Function.comp, hcase]
      · simp [Function.comp, hcase]
    simpa [hqids] using h2

/-- Every reachable bus state satisfies the invariant. -/
theorem busInv_of_reachable {s : BusState} (h : BusReachable s) :
    BusInv s := by
  induction h with
  | init => exact busInv_init
  | subscribe t _ ih => exact busInv_subscribe _ t ih
  | unsubscribe t q _ ih => exact busInv_unsubscribe _ t q ih
  | publish e _ ih => exact busInv_publish _ e ih

/-- When every element satisfying `P` has the same `f`-image `q` and the
`f`-images are pairwise distinct, `eraseP P` is idempotent (at most one
element matches, and it is gone after the first pass). -/
theorem eraseP_idem_of_unique {α β : Type} (f : α → β) (q : β)
    (P : α → Bool) (hPf : ∀ a, P a = true → f a = q) :
    ∀ l : List α, (l.map f).Nodup → (l.eraseP P).eraseP P = l.eraseP P
  | [], _ => rfl
  | a :: l, h => by
    rw [List.map_cons, List.nodup_cons] at h
    obtain ⟨hna, hnl⟩ := h
    by_cases hP : P a
    · rw [List.eraseP_cons_of_pos hP]
      apply List.eraseP_of_forall_not
      intro b hb hPb
      exact hna ((hPf a hP).symm ▸ (hPf b hPb) ▸ List.mem_map_of_mem f hb)
    · rw [List.eraseP_cons_of_neg (by simpa using hP),
        List.eraseP_cons_of_neg (by simpa using hP),
        eraseP_idem_of_unique f q P hPf l hnl]

/-- On a state whose queue ids are pairwise distinct, a second
`unsubscribe` of the same (type, queue) changes nothing. -/
theorem unsubscribe_unsubscribe (s : BusState) (t : EvType) (q : Nat)
    (h : BusInv s) :
    (s.unsubscribe t q).unsubscribe t q = s.unsubscribe t q := by
  obtain ⟨_, h2⟩ := h
  show BusState.mk _ _ = BusState.mk _ _
  congr 1
  exact eraseP_idem_of_unique (fun p => p.2.qid) q _
    (fun a ha => by
      have h3 := (Bool.and_eq_true _ _).mp ha
      have h4 : (a.2.qid == q) = true := h3.2
      simpa using h4) s.subs h2

/-- C7: on every reachable bus state, publishing `e` appends `e` to
exactly the queues subscribed for `e`'s type (no drop); a queue
subscribed for type `T` holds only events of type `T`; and a repeated
`unsubscribe` of the same queue is a no-op. -/
theorem C7_event_bus_delivery (s : BusState) (h : BusReachable s)
    (e : BusEvent) (t : EvType) (q : Nat) :
    (s.publish e).1.subs = s.subs.map (fun p =>
        if p.1 = e.ty then
          (p.1, ⟨p.2.qid, p.2.maxsize, p.2.items ++ [e]⟩)
        else p) ∧
    (∀ p ∈ s.subs, ∀ ev ∈ p.2.items, ev.ty = p.1) ∧
    (s.unsubscribe t q).unsubscribe t q = s.unsubscribe t q := by
  have hinv := busInv_of_reachable h
  have hms : ∀ p ∈ s.subs, p.2.maxsize = 0 := fun p hp => (hinv.1 p hp).1
  refine ⟨?_, ?_, unsubscribe_unsubscribe s t q hinv⟩
  · rw [publish_eq s e hms]
  · intro p hp ev hev
    exact (hinv.1 p hp).2.2 ev hev

/-- C7 witness: the concrete bus with one subscriber of type 0 — the
publish delivers to that queue, and double-unsubscribe is a no-op. -/
theorem C7_event_bus_delivery_witness :
    (((BusState.init.subscribe 0).1.publish ⟨0, 5⟩).1.subs =
      (BusState.init.subscribe 0).1.subs.map (fun p =>
        if p.1 = (BusEvent.mk 0 5).ty then
          (p.1, ⟨p.2.qid, p.2.maxsize, p.2.items ++ [⟨0, 5⟩]⟩)
        else p)) ∧
    (((BusState.init.subscribe 0).1.unsubscribe 0 0).unsubscribe 0 0 =
      (BusState.init.subscribe 0).1.unsubscribe 0 0) :=
  ⟨(C7_event_bus_delivery _
      (BusReachable.subscribe 0 BusReachable.init) ⟨0, 5⟩ 0 0).1,
   (C7_event_bus_delivery _
      (BusReachable.subscribe 0 BusReachable.init) ⟨0, 5⟩ 0 0).2.2⟩

/-- C9: on every reachable bus state, every subscribed queue has
`maxsize = 0` (unbounded, as `subscribe` creates them), so `put_nowait`
never reports a full queue and `publish` drops no event. -/
theorem C9_no_event_dropped (s : BusState) (h : BusReachable s)
    (e : BusEvent) :
    (∀ p ∈ s.subs, p.2.maxsize = 0) ∧
    (s.publish e).2 = 0 ∧
    (∀ p ∈ s.subs, (queuePut p.2 e).2 = false) := by
  have hinv := busInv_of_reachable h
  have hms : ∀ p ∈ s.subs, p.2.maxsize = 0 := fun p hp => (hinv.1 p hp).1
  refine ⟨hms, ?_, ?_⟩
  · rw [publish_eq s e hms]
  · intro p hp
    rw [queuePut_unbounded p.2 e (hms p hp)]

/-- C9 witness: on the concrete bus with one subscriber, a publish
drops nothing. -/
theorem C9_no_event_dropped_witness :
    ((BusState.init.subscribe 0).1.publish ⟨0, 5⟩).2 = 0 :=
  (C9_no_event_dropped _
    (BusReachable.subscribe 0 BusReachable.init) ⟨0, 5⟩).2.1

/-! ## The workspace protocol (afk/core/git_worktree.py)

Every function shells out to git via `_run_git(args, cwd)`, which
returns `(returncode, stdout, stderr)`.  The git process is the
environment: an oracle `GitEnv` maps each issued command to its result,
and each embedded function additionally returns the list of commands it
issued, in order, so that ordering contracts can be stated. -/

/-- The result of `_run_git`: `(proc.returncode, stdout, stderr)`. -/
structure GitRes where
  code : Int
  out : String
  err : String
deriving DecidableEq, Repr

/-- The git commands issued by the workspace protocol, with their
working directory. -/
inductive GitCmd where
  | rebaseAbort (cwd : String)
  | rebaseMain (cwd : String)
  | worktreeRemove (path : String) (cwd : String)
  | mergeAbort (cwd : String)
  | mergeFF (branch : String) (cwd : String)
  | branchDelete (branch : String) (cwd : String)
  | branchForceDelete (branch : String) (cwd : String)
  | addAll (cwd : String)
  | diffCachedQuiet (cwd : String)
  | diffCachedNameStatus (cwd : String)
  | commit (msg : String) (cwd : String)
deriving DecidableEq, Repr

/-- The working directory a command runs in. -/
def GitCmd.cwd : GitCmd → String
  | GitCmd.rebaseAbort c => c
  | GitCmd.rebaseMain c => c
  | GitCmd.worktreeRemove _ c => c
  | GitCmd.mergeAbort c => c
  | GitCmd.mergeFF _ c => c
  | GitCmd.branchDelete _ c => c
  | GitCmd.branchForceDelete _ c => c
  | GitCmd.addAll c => c
  | GitCmd.diffCachedQuiet c => c
  | GitCmd.diffCachedNameStatus c => c
  | GitCmd.commit _ c => c

/-- Is the command `git worktree remove --force ...`? -/
def GitCmd.isWorktreeRemove : GitCmd → Bool
  | GitCmd.worktreeRemove _ _ => true
  | _ => false

/-- Is the command the fast-forward `git merge --ff-only ...`? -/
def GitCmd.isMergeFF : GitCmd → Bool
  | GitCmd.mergeFF _ _ => true
  | _ => false

/-- The oracle supplying each git command's outcome. -/
abbrev GitEnv := GitCmd → GitRes

/-- Python `stderr or stdout` (empty stderr falls through). -/
def stderrOrStdout (r : GitRes) : String :=
  if r.err = "" then r.out else r.err

/-! ### `_build_commit_message` (git_worktree.py:29-60) -/

/-- `prefix_map.get(status, "Update")` with
`prefix_map = dict(A: Add, M: Update, D: Delete)`. -/
def actionForStatus (c : Char) : String :=
  if c = 'A' then "Add"
  else if c = 'M' then "Update"
  else if c = 'D' then "Delete"
  else "Update"

/-- The module-name extraction: `segments = filepath.split("/")`, take
`segments[1]` when `segments[0]` is one of afk/src/lib and there are at
least two segments, else `segments[0]`. -/
def moduleNameOf (filepath : String) : String :=
  match filepath.splitOn "/" with
  | s0 :: s1 :: _ =>
      if s0 = "afk" ∨ s0 = "src" ∨ s0 = "lib" then s1 else s0
  | [s0] => s0
  | [] => ""

/-- `name.rsplit(".", 1)[0] if "." in name else name`. -/
def stripExtension (name : String) : String :=
  if name.contains '.' then
    String.intercalate "." ((name.splitOn ".").dropLast)
  else name

/-- The `actions` accumulator of `_build_commit_message`, one list per
action key, in the dict's insertion order Add, Update, Delete. -/
structure CommitActions where
  add : List String
  update : List String
  delete : List String
deriving DecidableEq, Repr

/-- One iteration of the `for line in name_status_output.splitlines()`
loop: lines without a tab are skipped; the first character of the status
field picks the action and the module name is deduplicated into its
list. -/
def commitActionsStep (acts : CommitActions) (line : String) :
    CommitActions :=
  match line.splitOn "\t" with
  | p0 :: rest₀ :: rest =>
      let filepath := String.intercalate "\t" (rest₀ :: rest)
      match p0.toList with
      | [] => acts
      | c :: _ =>
          let action := actionForStatus c
          let name := stripExtension (moduleNameOf filepath)
          if action = "Add" then
            if name ∈ acts.add then acts
            else { acts with add := acts.add ++ [name] }
          else if action = "Delete" then
            if name ∈ acts.delete then acts
            else { acts with delete := acts.delete ++ [name] }
          else
            if name ∈ acts.update then acts
            else { acts with update := acts.update ++ [name] }
  | _ => acts

/-- Assemble the final message: `"; ".join(f"Action m1, m2" per
non-empty action list)` or `"Update files"`. -/
def joinCommitActions (acts : CommitActions) : String :=
  let ps :=
    (if acts.add ≠ [] then
      ["Add " ++ String.intercalate ", " acts.add] else []) ++
    (if acts.update ≠ [] then
      ["Update " ++ String.intercalate ", " acts.update] else []) ++
    (if acts.delete ≠ [] then
      ["Delete " ++ String.intercalate ", " acts.delete] else [])
  if ps = [] then "Update files" else String.intercalate "; " ps

/-- `_build_commit_message(name_status_output)`. -/
def build_commit_message (name_status_output : String) : String :=
  joinCommitActions
    ((name_status_output.splitOn "\n").foldl commitActionsStep ⟨[], [], []⟩)

/-! ### `commit_worktree_changes` (git_worktree.py:63-105) -/

/-- `commit_worktree_changes(worktree_path, session_name)`: stage all
changes (`git add -A`); if nothing is staged (`git diff --cached
--quiet` exits 0) return `(False, "No changes to commit.")`; else derive
the message from `git diff --cached --name-status` and commit.  Returns
`(had_changes, message)` and the issued commands. -/
def commit_worktree_changes (env : GitEnv)
    (worktree_path session_name : String) :
    (Bool × String) × List GitCmd :=
  let r1 := env (GitCmd.addAll worktree_path)
  let t1 := [GitCmd.addAll worktree_path]
  if r1.code ≠ 0 then ((false, "git add failed: " ++ r1.err), t1)
  else
    let r2 := env (GitCmd.diffCachedQuiet worktree_path)
    let t2 := t1 ++ [GitCmd.diffCachedQuiet worktree_path]
    if r2.code = 0 then ((false, "No changes to commit."), t2)
    else
      let r3 := env (GitCmd.diffCachedNameStatus worktree_path)
      let t3 := t2 ++ [GitCmd.diffCachedNameStatus worktree_path]
      let commit_msg :=
        if r3.code = 0 then build_commit_message r3.out else "Update files"
      let r4 := env (GitCmd.commit commit_msg worktree_path)
      let t4 := t3 ++ [GitCmd.commit commit_msg worktree_path]
      if r4.code ≠ 0 then ((false, "git commit failed: " ++ r4.err), t4)
      else ((true, r4.out), t4)

/-! ### Worktree removal and merge (git_worktree.py:108-237) -/

/-- `remove_worktree_after_merge(project_path, worktree_path,
branch_name?)`: force-remove the worktree; delete the branch with
`branch -d` only when a branch name is given.  Failures are logged,
never raised, so only the issued commands matter. -/
def remove_worktree_after_merge (project_path worktree_path : String)
    (branch_name : Option String) : List GitCmd :=
  [GitCmd.worktreeRemove worktree_path project_path] ++
    (match branch_name with
     | some b => [GitCmd.branchDelete b project_path]
     | none => [])

/-- `delete_branch(project_path, branch_name)` — best-effort
`git branch -d`. -/
def delete_branch (project_path branch_name : String) : List GitCmd :=
  [GitCmd.branchDelete branch_name project_path]

/-- `remove_worktree(project_path, worktree_path, branch_name)` —
best-effort force removal of worktree and branch (`branch -D`). -/
def remove_worktree (project_path worktree_path branch_name : String) :
    List GitCmd :=
  [GitCmd.worktreeRemove worktree_path project_path,
   GitCmd.branchForceDelete branch_name project_path]

/-- `merge_branch_to_main(project_path, branch_name, worktree_path)`
(git_worktree.py:108-148): defensively abort any in-progress rebase in
the worktree, rebase onto main inside the worktree; on failure abort the
rebase and return `(False, stderr or stdout)`; on success remove the
worktree, abort any in-progress merge on main, then fast-forward main to
the branch. -/
def merge_branch_to_main (env : GitEnv)
    (project_path branch_name worktree_path : String) :
    (Bool × String) × List GitCmd :=
  let t0 := [GitCmd.rebaseAbort worktree_path]
  let r := env (GitCmd.rebaseMain worktree_path)
  let t1 := t0 ++ [GitCmd.rebaseMain worktree_path]
  if r.code ≠ 0 then
    ((false, stderrOrStdout r), t1 ++ [GitCmd.rebaseAbort worktree_path])
  else
    let t2 := t1 ++ remove_worktree_after_merge project_path worktree_path
        none ++ [GitCmd.mergeAbort project_path]
    let r2 := env (GitCmd.mergeFF branch_name project_path)
    let t3 := t2 ++ [GitCmd.mergeFF branch_name project_path]
    if r2.code ≠ 0 then ((false, stderrOrStdout r2), t3)
    else ((true, r2.out), t3)

/-- On rebase failure, `merge_branch_to_main` aborts and returns without
any further command. -/
theorem merge_branch_to_main_fail (env : GitEnv) (p b w : String)
    (h : (env (GitCmd.rebaseMain w)).code ≠ 0) :
    merge_branch_to_main env p b w =
      ((false, stderrOrStdout (env (GitCmd.rebaseMain w))),
       [GitCmd.rebaseAbort w, GitCmd.rebaseMain w, GitCmd.rebaseAbort w]) := by
  simp [merge_branch_to_main, h]

/-- On rebase success, the issued commands are rebase, worktree removal,
merge abort, fast-forward — in that order. -/
theorem merge_branch_to_main_ok_trace (env : GitEnv) (p b w : String)
    (h : (env (GitCmd.rebaseMain w)).code = 0) :
    (merge_branch_to_main env p b w).2 =
      [GitCmd.rebaseAbort w, GitCmd.rebaseMain w,
       GitCmd.worktreeRemove w p, GitCmd.mergeAbort p,
       GitCmd.mergeFF b p] := by
  by_cases h2 : (env (GitCmd.mergeFF b p)).code = 0 <;>
    simp [merge_branch_to_main, remove_worktree_after_merge, h, h2]

/-- C3: ordering contract of `merge_branch_to_main`.  On rebase failure
it aborts and returns `(false, error)` having run only worktree-local
commands (no worktree removal, nothing in the main repo); on success the
command order is rebase, worktree removal, main-side merge abort,
fast-forward; and in every run a fast-forward command is preceded by the
worktree removal. -/
theorem C3_rebase_then_fast_forward (env : GitEnv) (p b w : String) :
    ((env (GitCmd.rebaseMain w)).code ≠ 0 →
      (merge_branch_to_main env p b w).1 =
        (false, stderrOrStdout (env (GitCmd.rebaseMain w))) ∧
      (merge_branch_to_main env p b w).2 =
        [GitCmd.rebaseAbort w, GitCmd.rebaseMain w,
         GitCmd.rebaseAbort w] ∧
      (∀ c ∈ (merge_branch_to_main env p b w).2,
        c.isWorktreeRemove = false) ∧
      (∀ c ∈ (merge_branch_to_main env p b w).2, c.cwd = w)) ∧
    ((env (GitCmd.rebaseMain w)).code = 0 →
      (merge_branch_to_main env p b w).2 =
        [GitCmd.rebaseAbort w, GitCmd.rebaseMain w,
         GitCmd.worktreeRemove w p, GitCmd.mergeAbort p,
         GitCmd.mergeFF b p]) ∧
    (∀ i c, (merge_branch_to_main env p b w).2.get? i = some c →
      c.isMergeFF = true →
      ∃ j, j < i ∧ (merge_branch_to_main env p b w).2.get? j =
        some (GitCmd.worktreeRemove w p)) := by
  by_cases h : (env (GitCmd.rebaseMain w)).code = 0
  · have htr := merge_branch_to_main_ok_trace env p b w h
    refine ⟨fun hc => absurd h hc, fun _ => htr, ?_⟩
    rw [htr]
    intro i c hget hff
    rcases i with _ | _ | _ | _ | _ | i
    · simp only [List.get?] at hget
      cases hget; simp [GitCmd.isMergeFF] at hff
    · simp only [List.get?] at hget
      cases hget; simp [GitCmd.isMergeFF] at hff
    · simp only [List.get?] at hget
      cases hget; simp [GitCmd.isMergeFF] at hff
    · simp only [List.get?] at hget
      cases hget; simp [GitCmd.isMergeFF] at hff
    · exact ⟨2, by omega, rfl⟩
    · simp only [List.get?] at hget
      exact Option.noConfusion hget
  · rw [merge_branch_to_main_fail env p b w h]
    refine ⟨fun _ => ⟨rfl, rfl, ?_, ?_⟩, fun hc => absurd hc h, ?_⟩
    · intro c hc
      simp only [List.mem_cons, List.not_mem_nil, or_false] at hc
      rcases hc with rfl | rfl | rfl <;> rfl
    · intro c hc
      simp only [List.mem_cons, List.not_mem_nil, or_false] at hc
      rcases hc with rfl | rfl | rfl <;> rfl
    · intro i c hget hff
      rcases i with _ | _ | _ | i
      · simp only [List.get?] at hget
        cases hget; simp [GitCmd.isMergeFF] at hff
      · simp only [List.get?] at hget
        cases hget; simp [GitCmd.isMergeFF] at hff
      · simp only [List.get?] at hget
        cases hget; simp [GitCmd.isMergeFF] at hff
      · simp only [List.get?] at hget
        exact Option.noConfusion hget

/-- The git environment where every command succeeds silently. -/
def envAllOk : GitEnv := fun _ => ⟨0, "", ""⟩

/-- The git environment where `git rebase main` fails with a conflict
and every other command succeeds. -/
def envRebaseConflict : GitEnv := fun c =>
  match c with
  | GitCmd.rebaseMain _ => ⟨1, "", "CONFLICT: could not apply commit"⟩
  | _ => ⟨0, "", ""⟩

/-- C3 witness: under the all-success environment the full trace is
rebase, remove worktree, abort merge, fast-forward, in order. -/
theorem C3_rebase_then_fast_forward_witness :
    (merge_branch_to_main envAllOk "/repo" "afk/s" "/repo/wt").2 =
      [GitCmd.rebaseAbort "/repo/wt", GitCmd.rebaseMain "/repo/wt",
       GitCmd.worktreeRemove "/repo/wt" "/repo",
       GitCmd.mergeAbort "/repo", GitCmd.mergeFF "afk/s" "/repo"] :=
  (C3_rebase_then_fast_forward envAllOk "/repo" "afk/s" "/repo/wt").2.1 rfl

/-! ## Claim C4: the commit-message function parameter

`session_manager.py` imports `CommitMessageFn` from
`afk.core.git_worktree` (lines 24-33) and `complete_session` calls
`commit_worktree_changes(..., commit_message_fn=self._commit_message_fn)`
(lines 263-266), but `git_worktree.py` defines neither the
`CommitMessageFn` type nor a `commit_message_fn` parameter on
`commit_worktree_changes` (lines 63-66).  The name lists below transcribe
those definition and call sites. -/

/-- The parameters of `commit_worktree_changes` as defined in
git_worktree.py:63-66. -/
def commitWorktreeChangesParams : List String :=
  ["worktree_path", "session_name"]

/-- The keyword arguments `SessionManager.complete_session` passes to
`commit_worktree_changes` beyond the positional ones
(session_manager.py:263-266). -/
def completeSessionCommitKeywordArgs : List String :=
  ["commit_message_fn"]

/-- The names session_manager.py imports from `afk.core.git_worktree`
(session_manager.py:24-33). -/
def sessionManagerGitWorktreeImports : List String :=
  ["CommitMessageFn", "commit_worktree_changes", "create_worktree",
   "delete_branch", "is_git_repo", "list_afk_worktrees",
   "merge_branch_to_main", "remove_worktree"]

/-- The functions and types git_worktree.py defines at module level. -/
def gitWorktreeModuleNames : List String :=
  ["_run_git", "is_git_repo", "_build_commit_message",
   "commit_worktree_changes", "merge_branch_to_main",
   "remove_worktree_after_merge", "delete_branch", "create_worktree",
   "remove_worktree", "list_afk_worktrees"]

/-- C4 (code bug): the caller passes `commit_message_fn` and imports
`CommitMessageFn`, but `commit_worktree_changes` accepts no such
parameter and `git_worktree.py` defines no such name — importing
`afk.core.session_manager` fails, so the delegation the claim (and the
spec) describe cannot happen. -/
theorem C4_commit_message_fn_not_accepted :
    "commit_message_fn" ∈ completeSessionCommitKeywordArgs ∧
    "commit_message_fn" ∉ commitWorktreeChangesParams ∧
    "CommitMessageFn" ∈ sessionManagerGitWorktreeImports ∧
    "CommitMessageFn" ∉ gitWorktreeModuleNames := by
  decide

/-! ## The session manager (afk/core/session_manager.py)

`SessionManager._sessions` is a dict from channel id to `Session`;
it is modelled as a function `String → Option Session`.  The agent
handle is modelled by its observable `session_id` attribute; calls to
`agent.stop()` / `agent.start(...)` are recorded in an `AgentOp`
trace. -/

/-- An agent handle: only its resumable `session_id` attribute is
observed by the session manager paths modelled here. -/
structure Agent where
  session_id : Option String
deriving DecidableEq, Repr

/-- The `Session` dataclass fields the modelled operations touch. -/
structure Session where
  name : String
  project_name : String
  project_path : String
  worktree_path : String
  channel_id : String
  agent : Agent
  agent_session_id : Option String
  state : String
  verbose : Bool
  managed_channel : Bool
deriving DecidableEq, Repr

/-- The session table `_sessions : dict[str, Session]`. -/
abbrev SessionTable := String → Option Session

/-- `self._sessions[channel_id] = session`. -/
def tableSet (t : SessionTable) (c : String) (s : Session) : SessionTable :=
  fun c2 => if c2 = c then some s else t c2

/-- `del self._sessions[channel_id]`. -/
def tableErase (t : SessionTable) (c : String) : SessionTable :=
  fun c2 => if c2 = c then none else t c2

/-- The calls made on agent processes, in order. -/
inductive AgentOp where
  | stop
  | start (working_dir : String) (resume_session_id : Option String)
deriving DecidableEq, Repr

/-- What a `stop_session` call produced: its boolean result, the new
table, and the agent / git operations performed. -/
structure StopOutcome where
  ok : Bool
  table : SessionTable
  agentOps : List AgentOp
  gitOps : List GitCmd

/-- `SessionManager.stop_session(channel_id)`
(session_manager.py:204-241): missing channel returns False; otherwise
mark stopped, cancel the reader, run cleanup, stop the agent (saving its
session id), close the logger, best-effort remove worktree and branch
`afk/<name>`, delete the table entry, persist, close the channel, return
True. -/
def stop_session (env : GitEnv) (t : SessionTable) (c : String) :
    StopOutcome :=
  match t c with
  | none => ⟨false, t, [], []⟩
  | some s =>
      let branch_name := "afk/" ++ s.name
      ⟨true, tableErase t c, [AgentOp.stop],
        remove_worktree s.project_path s.worktree_path branch_name⟩

/-- C6: `stop_session` returns True exactly when the channel had a
session, removes that session (touching no other channel), and a second
call on the same channel returns False. -/
theorem C6_idempotent_stop (env : GitEnv) (t : SessionTable)
    (c : String) :
    ((stop_session env t c).ok = true ↔ (t c).isSome = true) ∧
    (stop_session env t c).table c = none ∧
    (∀ c2, c2 ≠ c → (stop_session env t c).table c2 = t c2) ∧
    (stop_session env (stop_session env t c).table c).ok = false := by
  cases h : t c with
  | none =>
      refine ⟨?_, ?_, ?_, ?_⟩ <;>
        simp [stop_session, h]
  | some s =>
      refine ⟨?_, ?_, ?_, ?_⟩
      · simp [stop_session, h]
      · simp [stop_session, h, tableErase]
      · intro c2 hc2
        simp [stop_session, h, tableErase, hc2]
      · simp [stop_session, h, tableErase]

/-- C6 witness: a concrete one-session table — stopping twice returns
False the second time and leaves no entry. -/
theorem C6_idempotent_stop_witness :
    ((stop_session envAllOk
        (tableSet (fun _ => none) "c1"
          ⟨"s1", "p", "/p", "/p/wt", "c1", ⟨some "sid"⟩, some "sid",
           "idle", false, true⟩) "c1").ok = true ↔
      ((tableSet (fun _ => none) "c1"
          ⟨"s1", "p", "/p", "/p/wt", "c1", ⟨some "sid"⟩, some "sid",
           "idle", false, true⟩) "c1").isSome = true) ∧
    (stop_session envAllOk
        (tableSet (fun _ => none) "c1"
          ⟨"s1", "p", "/p", "/p/wt", "c1", ⟨some "sid"⟩, some "sid",
           "idle", false, true⟩) "c1").table "c1" = none ∧
    (stop_session envAllOk
      (stop_session envAllOk
        (tableSet (fun _ => none) "c1"
          ⟨"s1", "p", "/p", "/p/wt", "c1", ⟨some "sid"⟩, some "sid",
           "idle", false, true⟩) "c1").table "c1").ok = false :=
  ⟨(C6_idempotent_stop envAllOk _ "c1").1,
   (C6_idempotent_stop envAllOk _ "c1").2.1,
   (C6_idempotent_stop envAllOk _ "c1").2.2.2⟩

/-- What a `complete_session` call produced. -/
structure CompleteOutcome where
  result : Bool × String
  table : SessionTable
  agentOps : List AgentOp
  gitOps : List GitCmd

/-- `SessionManager.complete_session(channel_id)`
(session_manager.py:243-317): run cleanup, stop the agent and save its
session id, commit worktree changes (result ignored), run
`merge_branch_to_main`; on merge failure set state idle, create a fresh
agent and start it on the worktree with the saved session id, keep the
session in the table, return `(False, detail)`; on success delete the
branch, drop the session and return `(True, msg)`. -/
def complete_session (env : GitEnv) (t : SessionTable) (c : String) :
    CompleteOutcome :=
  match t c with
  | none => ⟨(false, "No session found for this topic."), t, [], []⟩
  | some s =>
      let s2 := { s with state := "stopped",
                         agent_session_id := s.agent.session_id }
      let commitOut := commit_worktree_changes env s.worktree_path s.name
      let branch_name := "afk/" ++ s.name
      let mergeOut :=
        merge_branch_to_main env s.project_path branch_name s.worktree_path
      if mergeOut.1.1 = false then
        let s3 := { s2 with state := "idle", agent := ⟨none⟩ }
        ⟨(false,
          "Merge failed for branch '" ++ branch_name ++ "'.\nError: " ++
          mergeOut.1.2 ++
          "\n\nSession remains active. Resolve conflicts and try again, " ++
          "or use /stop to discard changes."),
         tableSet t c s3,
         [AgentOp.stop, AgentOp.start s.worktree_path s2.agent_session_id],
         commitOut.2 ++ mergeOut.2⟩
      else
        ⟨(true, "Session '" ++ s.name ++
            "' completed. Branch merged into main."),
         tableErase t c,
         [AgentOp.stop],
         commitOut.2 ++ mergeOut.2 ++
           delete_branch s.project_path branch_name⟩

/-- C2: when the channel has a session and the rebase onto main fails,
`complete_session` returns `(false, detail)`, the rebase is aborted (the
git trace past the commit step is rebase-abort, failed rebase,
rebase-abort), the session stays in the table with state idle, and the
agent is stopped and restarted on the same worktree with the saved
resumable session id. -/
theorem C2_merge_conflict_restart (env : GitEnv) (t : SessionTable)
    (c : String) (s : Session) (hs : t c = some s)
    (hfail : (env (GitCmd.rebaseMain s.worktree_path)).code ≠ 0) :
    (complete_session env t c).result.1 = false ∧
    (∃ s3, (complete_session env t c).table c = some s3 ∧
      s3.state = "idle" ∧ s3.name = s.name ∧
      s3.worktree_path = s.worktree_path ∧
      s3.agent_session_id = s.agent.session_id) ∧
    (complete_session env t c).agentOps =
      [AgentOp.stop, AgentOp.start s.worktree_path s.agent.session_id] ∧
    (complete_session env t c).gitOps =
      (commit_worktree_changes env s.worktree_path s.name).2 ++
      [GitCmd.rebaseAbort s.worktree_path, GitCmd.rebaseMain s.worktree_path,
       GitCmd.rebaseAbort s.worktree_path] := by
  have hmerge := merge_branch_to_main_fail env s.project_path
    ("afk/" ++ s.name) s.worktree_path hfail
  refine ⟨?_, ?_, ?_, ?_⟩
  · simp [complete_session, hs, hmerge]
  · refine ⟨{ s with state := "idle", agent := ⟨none⟩, agent_session_id := s.agent.session_id }, ?_, rfl, rfl, rfl, rfl⟩
    simp [complete_session, hs, hmerge, tableSet]
  · simp [complete_session, hs, hmerge]
  · simp [complete_session, hs, hmerge]

/-- The session used by the concrete counterexamples and witnesses. -/
def exSession : Session :=
  ⟨"s1", "proj", "/repo", "/repo/.afk-worktrees/s1", "c1",
   ⟨some "agent-sid"⟩, some "agent-sid", "idle", false, true⟩

/-- C2 witness: with a conflicting rebase on a concrete one-session
table, completion fails, the session survives as idle, and the agent is
restarted with the saved session id. -/
theorem C2_merge_conflict_restart_witness :
    (complete_session envRebaseConflict
      (tableSet (fun _ => none) "c1" exSession) "c1").result.1 = false ∧
    (complete_session envRebaseConflict
      (tableSet (fun _ => none) "c1" exSession) "c1").agentOps =
      [AgentOp.stop,
       AgentOp.start "/repo/.afk-worktrees/s1" (some "agent-sid")] :=
  ⟨(C2_merge_conflict_restart envRebaseConflict _ "c1" exSession
      (by simp [tableSet]) (by simp [envRebaseConflict])).1,
   (C2_merge_conflict_restart envRebaseConflict _ "c1" exSession
      (by simp [tableSet]) (by simp [envRebaseConflict])).2.2.1⟩

/-! ## The project store (afk/storage/project_store.py)

`ProjectStore._projects` maps a project name to `{path, created_at}` —
entries written by `add` always carry both fields, so the value is the
record `ProjInfo` (always a truthy non-empty dict). -/

/-- A registered project's record. -/
structure ProjInfo where
  path : String
  created_at : String
deriving DecidableEq, Repr

/-- `ProjectStore._find_key(name)`: the exact key when present, else the
first key equal up to lowercasing. -/
def project_find_key (projects : List (String × ProjInfo))
    (name : String) : Option String :=
  if (projects.lookup name).isSome then some name
  else
    match projects.find? (fun p => p.1.toLower == name.toLower) with
    | some p => some p.1
    | none => none

/-- `ProjectStore.get(name)` — case-insensitive lookup. -/
def project_store_get (projects : List (String × ProjInfo))
    (name : String) : Option ProjInfo :=
  match project_find_key projects name with
  | some key => projects.lookup key
  | none => none

/-! ## `recover_sessions` (session_manager.py:481-579)

One record of the persisted `sessions.json` table; every field is
optional because the JSON may lack keys (`info.get(...)`). -/

/-- A persisted session record as read back from sessions.json. -/
structure SessionEntry where
  name : Option String := none
  project_name : Option String := none
  project_path : Option String := none
  worktree_path : Option String := none
  channel_id : Option String := none
  agent_session_id : Option String := none
  state : Option String := none
  verbose : Option Bool := none
  managed_channel : Option Bool := none
  template_name : Option String := none
deriving DecidableEq, Repr

/-- The `Session(...)` a recovered entry becomes: defaults applied as in
recover_sessions, a fresh agent from `_create_agent()`, and the
dataclass default state `idle`. -/
def mkRecoveredSession (channel_id : String) (info : SessionEntry) :
    Session :=
  { name := info.name.getD "unknown"
    project_name := info.project_name.getD ""
    project_path := info.project_path.getD ""
    worktree_path := info.worktree_path.getD ""
    channel_id := channel_id
    agent := ⟨none⟩
    agent_session_id := info.agent_session_id
    state := "idle"
    verbose := info.verbose.getD false
    managed_channel := info.managed_channel.getD true }

/-- `SessionManager.recover_sessions(project_store)`: walk the persisted
entries in order; skip an entry when its worktree directory is missing
(`dirEx` is `Path(...).is_dir()`), when `project_store.get` is falsy, or
when `agent_session_id` is falsy (absent or empty); otherwise create the
agent, `start(worktree_path, agent_session_id, ...)`, put the session in
the table and collect it.  Returns (recovered sessions, new table, agent
start calls in order). -/
def recover_sessions (dirEx : String → Bool)
    (store : List (String × ProjInfo)) :
    List (String × SessionEntry) → SessionTable →
      List Session × SessionTable × List AgentOp
  | [], t => ([], t, [])
  | (channel_id, info) :: rest, t =>
      let worktree_path := info.worktree_path.getD ""
      let project_name := info.project_name.getD ""
      let agent_session_id := info.agent_session_id
      if dirEx worktree_path = false then
        recover_sessions dirEx store rest t
      else if (project_store_get store project_name).isSome = false then
        recover_sessions dirEx store rest t
      else if optStrTruthy agent_session_id = false then
        recover_sessions dirEx store rest t
      else
        let sess := mkRecoveredSession channel_id info
        let out := recover_sessions dirEx store rest (tableSet t channel_id sess)
        (sess :: out.1, out.2.1,
         AgentOp.start worktree_path agent_session_id :: out.2.2)

/-- The recovery condition as the amended claim words it: the worktree
directory exists, the project resolves in the store, and the agent
session id is present *and non-empty*. -/
def recoveredCondition (dirEx : String → Bool)
    (store : List (String × ProjInfo)) (info : SessionEntry) : Bool :=
  dirEx (info.worktree_path.getD "") &&
  (project_store_get store (info.project_name.getD "")).isSome &&
  (info.agent_session_id.isSome && (info.agent_session_id != some ""))

theorem optStrTruthy_eq_isSome_and_ne (o : Option String) :
    optStrTruthy o = (o.isSome && (o != some "")) := by
  cases o with
  | none => rfl
  | some s => by_cases hs : s = "" <;> simp [optStrTruthy, hs, bne]

/-- C5 (amended): `recover_sessions` recovers exactly the entries whose
worktree directory exists, whose project is registered and whose agent
session id is present and non-empty, in table order; and for each it
calls `agent.start` with exactly the persisted worktree path and the
persisted agent session id. -/
theorem C5_recover_exactly_eligible (dirEx : String → Bool)
    (store : List (String × ProjInfo))
    (entries : List (String × SessionEntry)) (t : SessionTable) :
    (recover_sessions dirEx store entries t).1 =
      (entries.filter (fun e => recoveredCondition dirEx store e.2)).map
        (fun e => mkRecoveredSession e.1 e.2) ∧
    (recover_sessions dirEx store entries t).2.2 =
      (entries.filter (fun e => recoveredCondition dirEx store e.2)).map
        (fun e => AgentOp.start (e.2.worktree_path.getD "")
          e.2.agent_session_id) := by
  induction entries generalizing t with
  | nil => exact ⟨rfl, rfl⟩
  | cons e rest ih =>
      obtain ⟨c, info⟩ := e
      by_cases h1 : dirEx (info.worktree_path.getD "") = false
      · have hcond : recoveredCondition dirEx store info = false := by
          simp [recoveredCondition, h1]
        simp [recover_sessions, h1, hcond, ih t]
      · rw [Bool.not_eq_false] at h1
        by_cases h2 : (project_store_get store
            (info.project_name.getD "")).isSome = false
        · have hcond : recoveredCondition dirEx store info = false := by
            simp [recoveredCondition, h2]
          simp [recover_sessions, h1, h2, hcond, ih t]
        · rw [Bool.not_eq_false] at h2
          by_cases h3 : optStrTruthy info.agent_session_id = false
          · have hcond : recoveredCondition dirEx store info = false := by
              rw [optStrTruthy_eq_isSome_and_ne] at h3
              simp [recoveredCondition, h1, h2, h3]
            simp [recover_sessions, h1, h2, h3, hcond, ih t]
          · rw [Bool.not_eq_false] at h3
            have hcond : recoveredCondition dirEx store info = true := by
              rw [optStrTruthy_eq_isSome_and_ne] at h3
              simp [recoveredCondition, h1, h2, h3]
            have ih2 := ih (tableSet t c (mkRecoveredSession c info))
            simp [recover_sessions, h1, h2, h3, hcond, ih2.1, ih2.2]

/-- Concrete recovery scenario: the directory oracle (only the first
session's worktree exists on disk). -/
def c5DirEx : String → Bool := fun p => p == "/repo/.afk-worktrees/s1"

/-- Concrete recovery scenario: the registered projects. -/
def c5Store : List (String × ProjInfo) :=
  [("proj", ⟨"/repo", "2026-01-01T00:00:00+00:00"⟩)]

/-- A persisted entry whose agent session id is present but empty —
Python `if not agent_session_id` skips it. -/
def c5EmptySidEntry : SessionEntry :=
  { name := some "s1", project_name := some "proj",
    project_path := some "/repo",
    worktree_path := some "/repo/.afk-worktrees/s1",
    channel_id := some "c1", agent_session_id := some "",
    state := some "suspended", verbose := some false,
    managed_channel := some true }

/-- C5 counterexample: for this entry the claim's three conditions hold
(worktree directory exists, project registered, agent session id
present) yet `recover_sessions` recovers nothing and starts no agent —
the empty-string id is skipped. -/
theorem C5_counterexample_empty_session_id :
    c5DirEx (c5EmptySidEntry.worktree_path.getD "") = true ∧
    (project_store_get c5Store
      (c5EmptySidEntry.project_name.getD "")).isSome = true ∧
    (c5EmptySidEntry.agent_session_id).isSome = true ∧
    (recover_sessions c5DirEx c5Store [("c1", c5EmptySidEntry)]
      (fun _ => none)).1 = [] ∧
    (recover_sessions c5DirEx c5Store [("c1", c5EmptySidEntry)]
      (fun _ => none)).2.2 = [] := by
  decide

/-- A persisted entry that is recovered. -/
def c5GoodEntry : SessionEntry :=
  { name := some "s1", project_name := some "proj",
    project_path := some "/repo",
    worktree_path := some "/repo/.afk-worktrees/s1",
    channel_id := some "c1", agent_session_id := some "sid-1",
    state := some "suspended", verbose := some false,
    managed_channel := some true }

/-- A persisted entry whose worktree directory is gone. -/
def c5GoneWorktreeEntry : SessionEntry :=
  { name := some "s2", project_name := some "proj",
    project_path := some "/repo",
    worktree_path := some "/repo/.afk-worktrees/s2",
    channel_id := some "c2", agent_session_id := some "sid-2",
    state := some "suspended", verbose := some false,
    managed_channel := some true }

/-- C5 witness: the amended theorem applied to the concrete two-entry
table (one eligible, one with a missing worktree). -/
theorem C5_recover_exactly_eligible_witness :
    (recover_sessions c5DirEx c5Store
      [("c1", c5GoodEntry), ("c2", c5GoneWorktreeEntry)]
      (fun _ => none)).1 =
      (([("c1", c5GoodEntry), ("c2", c5GoneWorktreeEntry)].filter
        (fun e => recoveredCondition c5DirEx c5Store e.2)).map
        (fun e => mkRecoveredSession e.1 e.2)) ∧
    (recover_sessions c5DirEx c5Store
      [("c1", c5GoodEntry), ("c2", c5GoneWorktreeEntry)]
      (fun _ => none)).2.2 =
      (([("c1", c5GoodEntry), ("c2", c5GoneWorktreeEntry)].filter
        (fun e => recoveredCondition c5DirEx c5Store e.2)).map
        (fun e => AgentOp.start (e.2.worktree_path.getD "")
          e.2.agent_session_id)) :=
  C5_recover_exactly_eligible c5DirEx c5Store
    [("c1", c5GoodEntry), ("c2", c5GoneWorktreeEntry)] (fun _ => none)

/-! ## The message store (afk/storage/message_store.py)

A channel's history is a deque iterated oldest-first.  Timestamps are
`time.time()` floats compared only with `>`; they are modelled as
rationals.  `limit` is a Python int (the HTTP layer may pass any
integer), modelled as `Int`. -/

/-- The `Message` dataclass fields `get_messages` touches. -/
structure Message where
  timestamp : Rat
  role : String
  text : String
deriving DecidableEq, Repr

/-- The `for m in msgs` loop of `MessageStore.get_messages`
(message_store.py:72-85): collect each message with `timestamp > after`
and break once `len(result) >= limit`. -/
def get_messages_loop (after : Rat) (limit : Int) :
    List Message → List Message → List Message
  | [], result => result
  | m :: rest, result =>
      if after < m.timestamp then
        let result2 := result ++ [m]
        if limit ≤ (result2.length : Int) then result2
        else get_messages_loop after limit rest result2
      else get_messages_loop after limit rest result

/-- `MessageStore.get_messages(channel_id, after, limit)`: iterate the
channel's messages (`self._store.get(channel_id, deque())`,
oldest-first) with the collection loop. -/
def get_messages (store : String → List Message) (channel_id : String)
    (after : Rat) (limit : Int) : List Message :=
  get_messages_loop after limit (store channel_id) []

/-- The collection loop keeps the first qualifying messages: with spare
capacity it equals the accumulator followed by the filtered remainder
truncated to the remaining capacity. -/
theorem get_messages_loop_eq (after : Rat) (limit : Int) :
    ∀ (msgs acc : List Message), (acc.length : Int) < limit →
      get_messages_loop after limit msgs acc =
        acc ++ (msgs.filter (fun m => decide (after < m.timestamp))).take
          (limit - acc.length).toNat
  | [], acc, _ => by simp [get_messages_loop]
  | m :: rest, acc, hlt => by
      by_cases hm : after < m.timestamp
      · by_cases hstop : limit ≤ ((acc ++ [m]).length : Int)
        · have hn : (limit - acc.length).toNat = 1 := by
            simp only [List.length_append, List.length_singleton] at hstop
            omega
          simp only [get_messages_loop, if_pos hm, if_pos hstop,
            List.filter_cons, hm, decide_True, if_true, hn,
            List.take_succ_cons, List.take_zero]
        · have hlt2 : (((acc ++ [m]).length : Int)) < limit := by
            simp only [List.length_append, List.length_singleton] at hstop ⊢
            omega
          have ih := get_messages_loop_eq after limit rest (acc ++ [m]) hlt2
          have hn : (limit - acc.length).toNat =
              (limit - ((acc ++ [m]).length : Int)).toNat + 1 := by
            simp only [List.length_append, List.length_singleton] at hlt2 ⊢
            omega
          simp only [get_messages_loop, if_pos hm, if_neg hstop, ih,
            List.filter_cons, hm, decide_True, if_true, hn,
            List.take_succ_cons, List.append_assoc, List.singleton_append]
      · have ih := get_messages_loop_eq after limit rest acc hlt
        simp [get_messages_loop, hm, ih, List.filter_cons]

/-- C10 (amended, for `limit ≥ 1`): `get_messages` returns, in
insertion order, the oldest messages with `timestamp > after`,
truncated to at most `limit`; messages at exactly `after` are
excluded. -/
theorem C10_get_messages_oldest_qualifying
    (store : String → List Message) (channel_id : String)
    (after : Rat) (limit : Int) (h : 1 ≤ limit) :
    get_messages store channel_id after limit =
      ((store channel_id).filter
        (fun m => decide (after < m.timestamp))).take limit.toNat ∧
    (∀ m ∈ get_messages store channel_id after limit,
      after < m.timestamp) ∧
    (get_messages store channel_id after limit).length ≤ limit.toNat := by
  have h0 : (([] : List Message).length : Int) < limit := by
    simp; omega
  have heq := get_messages_loop_eq after limit (store channel_id) [] h0
  have heq2 : get_messages store channel_id after limit =
      ((store channel_id).filter
        (fun m => decide (after < m.timestamp))).take limit.toNat := by
    rw [get_messages, heq]
    simp
  refine ⟨heq2, ?_, ?_⟩
  · intro m hm
    rw [heq2] at hm
    have := List.mem_of_mem_filter (List.mem_of_mem_take hm)
    simpa using List.of_mem_filter (List.mem_of_mem_take hm)
  · rw [heq2]
    exact le_trans (List.length_take_le _ _) (le_refl _)

/-- The concrete single-message channel for the C10 counterexample. -/
def c10Store : String → List Message :=
  fun c => if c = "web:1" then [⟨1, "user", "hi"⟩] else []

/-- C10 counterexample: with `limit = 0` the loop appends the first
qualifying message before checking the bound, so the result has one
entry although the claim allows at most `limit = 0`. -/
theorem C10_counterexample_limit_zero :
    get_messages c10Store "web:1" 0 0 = [⟨1, "user", "hi"⟩] ∧
    ¬((get_messages c10Store "web:1" 0 0).length ≤ 0) := by
  constructor
  · rfl
  · decide

/-- The concrete four-message channel for the C10 witness. -/
def c10Store4 : String → List Message :=
  fun c => if c = "web:1" then
    [⟨1, "user", "a"⟩, ⟨2, "assistant", "b"⟩,
     ⟨3, "user", "c"⟩, ⟨4, "assistant", "d"⟩] else []

/-- C10 witness: the amended theorem at `after = 1`, `limit = 2` — the
oldest two qualifying messages come back, the newest is omitted and the
`timestamp = after` message is excluded. -/
theorem C10_get_messages_oldest_qualifying_witness :
    get_messages c10Store4 "web:1" 1 2 =
      ((c10Store4 "web:1").filter
        (fun m => decide ((1 : Rat) < m.timestamp))).take (2 : Int).toNat ∧
    (get_messages c10Store4 "web:1" 1 2).length ≤ (2 : Int).toNat :=
  ⟨(C10_get_messages_oldest_qualifying c10Store4 "web:1" 1 2
      (by decide)).1,
   (C10_get_messages_oldest_qualifying c10Store4 "web:1" 1 2
      (by decide)).2.2⟩

end Afk
